import Mathlib

/-!
Verification development for the two LLM provider adapters of the repository:
`app/lib/modules/llm/providers/together.ts` (the AgentRouter provider) and
`app/lib/modules/llm/providers/amazon-bedrock.ts` (the Amazon Bedrock
provider).  The TypeScript sources are shallowly embedded below: JSON values
become an inductive type, JavaScript truthiness and the `||` / `??` operators
are modelled explicitly, the HTTP transport is a parameter mapping a request
(url plus auth header style) to an outcome, and thrown errors become `Except`
results.  JSON numbers are modelled as integers: every numeric value the
adapters inspect (context lengths, prices, token budgets) is integral.
-/

namespace Spec2Proof

/-- A JSON value, as produced by a successful `JSON.parse` / `resp.json()`. -/
inductive Json where
  | null : Json
  | bool : Bool → Json
  | num : Int → Json
  | str : String → Json
  | arr : List Json → Json
  | obj : List (String × Json) → Json

mutual

/-- Structural (value) equality test on JSON values. -/
def Json.beq : Json → Json → Bool
  | .null, .null => true
  | .bool a, .bool b => a == b
  | .num a, .num b => a == b
  | .str a, .str b => a == b
  | .arr a, .arr b => Json.beqList a b
  | .obj a, .obj b => Json.beqFields a b
  | _, _ => false

/-- Equality test on JSON arrays. -/
def Json.beqList : List Json → List Json → Bool
  | [], [] => true
  | a :: as, b :: bs => Json.beq a b && Json.beqList as bs
  | _, _ => false

/-- Equality test on JSON object field lists. -/
def Json.beqFields : List (String × Json) → List (String × Json) → Bool
  | [], [] => true
  | (k, v) :: as, (l, w) :: bs => k == l && Json.beq v w && Json.beqFields as bs
  | _, _ => false

end

mutual

theorem Json.beq_iff : ∀ a b : Json, (Json.beq a b = true ↔ a = b)
  | .null, .null => by simp [Json.beq]
  | .null, .bool _ => by simp [Json.beq]
  | .null, .num _ => by simp [Json.beq]
  | .null, .str _ => by simp [Json.beq]
  | .null, .arr _ => by simp [Json.beq]
  | .null, .obj _ => by simp [Json.beq]
  | .bool _, .null => by simp [Json.beq]
  | .bool _, .bool _ => by simp [Json.beq]
  | .bool _, .num _ => by simp [Json.beq]
  | .bool _, .str _ => by simp [Json.beq]
  | .bool _, .arr _ => by simp [Json.beq]
  | .bool _, .obj _ => by simp [Json.beq]
  | .num _, .null => by simp [Json.beq]
  | .num _, .bool _ => by simp [Json.beq]
  | .num _, .num _ => by simp [Json.beq]
  | .num _, .str _ => by simp [Json.beq]
  | .num _, .arr _ => by simp [Json.beq]
  | .num _, .obj _ => by simp [Json.beq]
  | .str _, .null => by simp [Json.beq]
  | .str _, .bool _ => by simp [Json.beq]
  | .str _, .num _ => by simp [Json.beq]
  | .str _, .str _ => by simp [Json.beq]
  | .str _, .arr _ => by simp [Json.beq]
  | .str _, .obj _ => by simp [Json.beq]
  | .arr _, .null => by simp [Json.beq]
  | .arr _, .bool _ => by simp [Json.beq]
  | .arr _, .num _ => by simp [Json.beq]
  | .arr _, .str _ => by simp [Json.beq]
  | .arr a, .arr b => by simp [Json.beq, Json.beqList_iff a b]
  | .arr _, .obj _ => by simp [Json.beq]
  | .obj _, .null => by simp [Json.beq]
  | .obj _, .bool _ => by simp [Json.beq]
  | .obj _, .num _ => by simp [Json.beq]
  | .obj _, .str _ => by simp [Json.beq]
  | .obj _, .arr _ => by simp [Json.beq]
  | .obj a, .obj b => by simp [Json.beq, Json.beqFields_iff a b]

theorem Json.beqList_iff : ∀ a b : List Json, (Json.beqList a b = true ↔ a = b)
  | [], [] => by simp [Json.beqList]
  | [], _ :: _ => by simp [Json.beqList]
  | _ :: _, [] => by simp [Json.beqList]
  | a :: as, b :: bs => by
      simp [Json.beqList, Json.beq_iff a b, Json.beqList_iff as bs]

theorem Json.beqFields_iff : ∀ a b : List (String × Json), (Json.beqFields a b = true ↔ a = b)
  | [], [] => by simp [Json.beqFields]
  | [], _ :: _ => by simp [Json.beqFields]
  | _ :: _, [] => by simp [Json.beqFields]
  | (k, v) :: as, (l, w) :: bs => by
      simp [Json.beqFields, Json.beq_iff v w, Json.beqFields_iff as bs, and_assoc]

end

instance : DecidableEq Json := fun a b => decidable_of_iff _ (Json.beq_iff a b)

/-- JavaScript truthiness of a JSON value: `null`, `false`, `0` and `""` are
falsy, everything else (including every array and object) is truthy. -/
def truthy : Json → Bool
  | .null => false
  | .bool b => b
  | .num n => n != 0
  | .str s => s != ""
  | _ => true

/-- Truthiness of a possibly-`undefined` JSON value (`none` = `undefined`). -/
def truthyO : Option Json → Bool
  | none => false
  | some j => truthy j

/-- Property lookup on an association list of object fields (first match). -/
def lookupField : List (String × Json) → String → Option Json
  | [], _ => none
  | (k, v) :: rest, key => if k = key then some v else lookupField rest key

/-- JavaScript property access `j.key`: a field of an object, `undefined`
(`none`) on anything else (primitives autobox to objects without the probed
own properties, so the access yields `undefined` rather than throwing). -/
def Json.getField : Json → String → Option Json
  | .obj fs, key => lookupField fs key
  | _, _ => none

/-- `Object.values(j)`: the field values of an object in insertion order, the
elements of an array, and the empty list for primitives (a string has
character-valued entries, none of which is ever an array, so the empty list
is observationally equivalent for the array-scanning use below). -/
def Json.values : Json → List Json
  | .obj fs => fs.map (·.2)
  | .arr xs => xs
  | _ => []

/-- JavaScript `a || b` on possibly-`undefined` JSON values: the first operand
if truthy, otherwise the second. -/
def jsOr (a b : Option Json) : Option Json :=
  if truthyO a then a else b

mutual

/-- JavaScript `String(j)` string coercion: `"null"` for `null`, decimal for
numbers, the string itself, arrays joined by commas (with `null` rendered
empty inside arrays), `"[object Object]"` for plain objects. -/
def jsToString : Json → String
  | .null => "null"
  | .bool b => if b then "true" else "false"
  | .num n => toString n
  | .str s => s
  | .arr xs => String.intercalate "," (jsArrElemStrings xs)
  | .obj _ => "[object Object]"

/-- Array elements under `Array.prototype.toString`: `null` renders empty. -/
def jsArrElemStrings : List Json → List String
  | [] => []
  | .null :: rest => "" :: jsArrElemStrings rest
  | j :: rest => jsToString j :: jsArrElemStrings rest

end

/-- Does the character list start with the given pattern? -/
def startsWithChars : List Char → List Char → Bool
  | _, [] => true
  | [], _ :: _ => false
  | c :: cs, p :: ps => c = p && startsWithChars cs ps

/-- Does the pattern occur anywhere in the character list? -/
def includesChars : List Char → List Char → Bool
  | [], p => p.isEmpty
  | c :: cs, p => startsWithChars (c :: cs) p || includesChars cs p

/-- JavaScript `s.includes(pat)`. -/
def strIncludes (s pat : String) : Bool :=
  includesChars s.data pat.data

/-- ASCII lower-casing of one character (`toLowerCase`: the identifiers the
sources compare are ASCII). -/
def charLower (c : Char) : Char :=
  if 'A' ≤ c && c ≤ 'Z' then Char.ofNat (c.toNat + 32) else c

/-- JavaScript `s.toLowerCase()` (ASCII case folding). -/
def lowerStr (s : String) : String :=
  ⟨s.data.map charLower⟩

/-- An ASCII whitespace character (`trim` strips these). -/
def isWhite (c : Char) : Bool :=
  c = ' ' || c = '\t' || c = '\n' || c = '\r'

/-- JavaScript `s.trim()`. -/
def jsTrim (s : String) : String :=
  ⟨((s.data.dropWhile isWhite).reverse.dropWhile isWhite).reverse⟩

/-- A string-valued key/value store (`Record<string, string>` in the source:
`apiKeys`, `serverEnv`, `process.env`).  `none` on lookup = `undefined`. -/
abbrev Store := List (String × String)

/-- Lookup in a string store. -/
def storeGet : Store → String → Option String
  | [], _ => none
  | (k, v) :: rest, key => if k = key then some v else storeGet rest key

/-- Truthiness of a possibly-`undefined` string: `undefined` and `""` falsy. -/
def truthyS : Option String → Bool
  | none => false
  | some s => s != ""

/-- JavaScript `a || b` on possibly-`undefined` strings. -/
def jsOrS (a b : Option String) : Option String :=
  if truthyS a then a else b

/-- JavaScript `a || d` where the final operand is a (string) literal:
collapses the `undefined` case away. -/
def jsOrD (a : Option String) (d : String) : String :=
  match a with
  | none => d
  | some s => if s = "" then d else s

/-- The `IProviderSetting` object for one provider, restricted to the fields
the sources read: `apiKey`, `baseUrl` and (via an `as any` cast) `base_url`. -/
structure ProviderSetting where
  apiKey : Option String := none
  baseUrl : Option String := none
  base_url : Option String := none
deriving DecidableEq

/-- Lookup of a provider's settings object in `providerSettings`. -/
def settingsGet : List (String × ProviderSetting) → String → Option ProviderSetting
  | [], _ => none
  | (k, v) :: rest, key => if k = key then some v else settingsGet rest key

/-- Modelled from the spec: `BaseProvider.getProviderBaseUrlAndKey` is
imported from `~/lib/modules/llm/base-provider`, which is not among the given
source files.  Spec section 4.1 describes it: first-non-empty precedence,
evaluated independently for `apiKey` and `baseUrl` — the value under the
provider's own name in the explicit key map, then the value under the
configured default key name in the explicit key map, then the named settings
for this provider, then the process environment under the default key name.
(The provider-specific alias keys of spec steps 3, 5 and the second half of
step 6, and the literal default base URL of step 7, appear verbatim in the
providers' own fallback chains in the given sources and are modelled there.)
Returns `(baseUrl, apiKey)`. -/
def getProviderBaseUrlAndKey (name : String) (apiKeys : Option Store)
    (settings : Option ProviderSetting) (serverEnv : Store)
    (defaultBaseUrlKey defaultApiTokenKey : String) :
    Option String × Option String :=
  let apiKey :=
    jsOrS (apiKeys.bind (storeGet · name))
      (jsOrS (apiKeys.bind (storeGet · defaultApiTokenKey))
        (jsOrS (settings.bind (·.apiKey)) (storeGet serverEnv defaultApiTokenKey)))
  let baseUrl :=
    jsOrS (settings.bind (·.baseUrl)) (storeGet serverEnv defaultBaseUrlKey)
  (baseUrl, apiKey)

/-- One catalog entry (`ModelInfo`).  `name` is the raw id picked by the
dynamic mapper and may be `undefined` (`none`); `maxCompletionTokens` is an
optional field; `raw` keeps the raw entry for dynamic models. -/
structure ModelInfo where
  name : Option Json
  label : String
  provider : String
  maxTokenAllowed : Int
  maxCompletionTokens : Option Int := none
  raw : Option Json := none
deriving DecidableEq

/-- `TogetherProvider.staticModels`: the fixed fallback catalog. -/
def staticModels : List ModelInfo :=
  [{ name := some (.str "claude-sonnet-4-5-20250929"),
     label := "Claude Sonnet 4.5",
     provider := "AgentRouter",
     maxTokenAllowed := 200000,
     maxCompletionTokens := some 8192 }]

/-- `AmazonBedrockProvider.staticModels`. -/
def bedrockStaticModels : List ModelInfo :=
  [{ name := some (.str "us.anthropic.claude-3-7-sonnet-20250219-v1:0"),
     label := "Claude 3.7 Sonnet (Bedrock)",
     provider := "AmazonBedrock",
     maxTokenAllowed := 4096 }]

/-- The authentication header style of one HTTP GET issued by the dynamic
catalog fetch: `Authorization: Bearer <key>` or `x-api-key: <key>`. -/
inductive AuthHeader where
  | bearer : String → AuthHeader
  | xApiKey : String → AuthHeader
deriving DecidableEq

/-- One HTTP GET request issued by the dynamic catalog fetch. -/
structure Request where
  url : String
  auth : AuthHeader
deriving DecidableEq

/-- Behaviour of the transport on one request: a network error (the `fetch`
call throws), or a response with an HTTP status and the result of `.json()`
(`none` when the body does not parse as JSON). -/
inductive FetchOutcome where
  | networkError : FetchOutcome
  | response : Nat → Option Json → FetchOutcome

/-- The external HTTP transport: the behaviour of `fetch` on each request. -/
abbrev Transport := Request → FetchOutcome

/-- `resp.ok`: status in the range 200–299. -/
def isOkStatus (s : Nat) : Bool := 200 ≤ s && s < 300

/-- An outcome that does not deliver a parseable JSON body from an OK
response: a network error, a non-OK status, or an OK status whose body does
not parse. -/
def FetchOutcome.failing : FetchOutcome → Bool
  | .networkError => true
  | .response s b => !isOkStatus s || b.isNone

/-- Remove one final `'/'` from a character list, if present. -/
def dropLastSlash : List Char → List Char
  | [] => []
  | [c] => if c = '/' then [] else [c]
  | c :: rest => c :: dropLastSlash rest

/-- `replace(/\/$/, '')`: strip one trailing slash. -/
def stripTrailingSlash (s : String) : String :=
  ⟨dropLastSlash s.data⟩

/-- The ordered candidate endpoint URLs of `getDynamicModels`. -/
def endpoints (baseUrl : String) : List String :=
  [stripTrailingSlash baseUrl ++ "/v1beta/models",
   stripTrailingSlash baseUrl ++ "/v1/models",
   stripTrailingSlash baseUrl ++ "/models"]

/-- One iteration of the endpoint loop of `getDynamicModels`: the bearer GET,
the single `x-api-key` retry on 401/403, and the decision to stop (`some`
body) or continue (`none`).  Returns the requests issued and the outcome. -/
def tryEndpoint (t : Transport) (key url : String) : List Request × Option Json :=
  match t ⟨url, .bearer key⟩ with
  | .networkError => ([⟨url, .bearer key⟩], none)
  | .response status body =>
    if status = 401 || status = 403 then
      match t ⟨url, .xApiKey key⟩ with
      | .networkError => ([⟨url, .bearer key⟩, ⟨url, .xApiKey key⟩], none)
      | .response s2 b2 =>
        if isOkStatus s2 then ([⟨url, .bearer key⟩, ⟨url, .xApiKey key⟩], b2)
        else ([⟨url, .bearer key⟩, ⟨url, .xApiKey key⟩], none)
    else if isOkStatus status then ([⟨url, .bearer key⟩], body)
    else ([⟨url, .bearer key⟩], none)

/-- The endpoint loop of `getDynamicModels`: try each candidate in order,
stop at the first one that yields a parsed JSON body.  Returns the full
request trace and the final `resJson` (`none` when no candidate succeeded). -/
def fetchLoop (t : Transport) (key : String) : List String → List Request × Option Json
  | [] => ([], none)
  | url :: rest =>
    match tryEndpoint t key url with
    | (reqs, some j) => (reqs, some j)
    | (reqs, none) =>
      let r := fetchLoop t key rest
      (reqs ++ r.1, r.2)

/-- Response-shape normalization of `getDynamicModels`: the body itself if it
is an array, else the first array-valued field among `models`, `data`,
`result`, `items`, else the first array among the top-level values, else the
empty list. -/
def extractRawModels (j : Json) : List Json :=
  match j with
  | .arr xs => xs
  | _ =>
    match j.getField "models" with
    | some (.arr xs) => xs
    | _ =>
      match j.getField "data" with
      | some (.arr xs) => xs
      | _ =>
        match j.getField "result" with
        | some (.arr xs) => xs
        | _ =>
          match j.getField "items" with
          | some (.arr xs) => xs
          | _ =>
            match j.values.find? (fun v => match v with | .arr _ => true | _ => false) with
            | some (.arr xs) => xs
            | _ => []

/-- The chat-capability filter of `getDynamicModels`. -/
def isChatModel (m : Json) : Bool :=
  if !truthy m then false
  else
    match m.getField "type" with
    | some (.str t) => lowerStr t == "chat"
    | _ =>
      let id := lowerStr (jsToString ((jsOr (m.getField "id") (jsOr (m.getField "name")
        (some (.str "")))).getD .null))
      strIncludes id "chat" || strIncludes id "claude" ||
        strIncludes id "sonnet" || strIncludes id "assistant"

/-- The id picked by the mapper:
`m.id || m.model_id || m.name || (m._id && String(m._id))`. -/
def idOf (m : Json) : Option Json :=
  jsOr (m.getField "id") (jsOr (m.getField "model_id") (jsOr (m.getField "name")
    (match m.getField "_id" with
     | none => none
     | some v => if truthy v then some (.str (jsToString v)) else some v)))

/-- The display value: `m.display_name || m.name || id || 'unknown-model'`. -/
def displayOf (m : Json) : Json :=
  (jsOr (m.getField "display_name") (jsOr (m.getField "name") (jsOr (idOf m)
    (some (.str "unknown-model"))))).getD (.str "unknown-model")

/-- `n.toFixed(2)` for an integral number. -/
def toFixed2 (n : Int) : String := toString n ++ ".00"

/-- `n.toFixed(4)` for an integral number. -/
def toFixed4 (n : Int) : String := toString n ++ ".0000"

/-- The flat-price fallback of the price suffix. -/
def priceFallback (m : Json) : String :=
  match m.getField "price" with
  | some (.num p) => " - $" ++ toFixed4 p
  | _ => ""

/-- The optional price suffix of the label. -/
def pricePartOf (m : Json) : String :=
  match m.getField "pricing" with
  | some p =>
    if truthy p then
      match p.getField "input", p.getField "output" with
      | some (.num i), some (.num o) =>
        " - in:$" ++ toFixed2 i ++ " out:$" ++ toFixed2 o
      | _, _ => priceFallback m
    else priceFallback m
  | none => priceFallback m

/-- The numeric context length:
`Number.isFinite(m.context_length) ? m.context_length : (Number.isFinite(m.context) ? m.context : undefined)`. -/
def ctxOf (m : Json) : Option Int :=
  match m.getField "context_length" with
  | some (.num n) => some n
  | _ =>
    match m.getField "context" with
    | some (.num n) => some n
    | _ => none

/-- The optional context suffix of the label: `ctx ? ... : ''` (note the
JavaScript truthiness test: a context length of `0` yields no suffix). -/
def ctxLabelOf (m : Json) : String :=
  match ctxOf m with
  | some n => if n ≠ 0 then " - context " ++ toString (Int.fdiv n 1000) ++ "k" else ""
  | none => ""

/-- The entry-to-`ModelInfo` mapper of `getDynamicModels`. -/
def mapModel (m : Json) : ModelInfo :=
  let maxTokenAllowed := (ctxOf m).getD 8000
  { name := idOf m,
    label := jsToString (displayOf m) ++ pricePartOf m ++ ctxLabelOf m,
    provider := "AgentRouter",
    maxTokenAllowed := maxTokenAllowed,
    maxCompletionTokens := some (min 8192 (if maxTokenAllowed = 0 then 8192 else maxTokenAllowed)),
    raw := some m }

/-- A JSON value that, as a JavaScript `Map` key, compares by value under
SameValueZero: the primitives.  Objects and arrays compare by reference. -/
def isPrimKey : Json → Bool
  | .null => true
  | .bool _ => true
  | .num _ => true
  | .str _ => true
  | .arr _ => false
  | .obj _ => false

/-- SameValueZero key equality between two name values occurring at distinct
positions within one `getDynamicModels` run: primitive values compare by
value; objects and arrays compare by reference, and `JSON.parse` never
aliases (and `String(m._id)` builds a fresh string, which compares by value
anyway), so two object or array values reached from distinct mapped entries
are never the same reference and never compare equal as keys. -/
def sameKey : Json → Json → Bool
  | .null, .null => true
  | .bool a, .bool b => a == b
  | .num a, .num b => a == b
  | .str a, .str b => a == b
  | _, _ => false

/-- `sameKey` lifted to possibly-`undefined` values (`undefined` is a
primitive, equal to itself under SameValueZero). -/
def sameKeyO : Option Json → Option Json → Bool
  | none, none => true
  | some a, some b => sameKey a b
  | _, _ => false

/-- `Map.has` over the keys already inserted, with the `Map`'s SameValueZero
key equality. -/
def seenHas : List (Option Json) → Option Json → Bool
  | [], _ => false
  | x :: rest, y => sameKeyO x y || seenHas rest y

/-- The de-duplication loop of `getDynamicModels`: a JavaScript `Map` keyed
on `name` (insertion-ordered, first-seen wins, SameValueZero key equality:
by value on primitive names, by reference — hence never equal across
distinct parsed entries — on object/array names), rendered as a recursion
carrying the keys already inserted; entries with a falsy `name` are
skipped. -/
def dedupeByName : List ModelInfo → List (Option Json) → List ModelInfo
  | [], _ => []
  | mi :: rest, seen =>
    if !truthyO mi.name then dedupeByName rest seen
    else if seenHas seen mi.name then dedupeByName rest seen
    else mi :: dedupeByName rest (mi.name :: seen)

/-- Everything `getDynamicModels` does after the endpoint loop: the `!resJson`
check, shape normalization, chat filter, mapping, de-duplication, and the
static fallbacks. -/
def processBody (resJson : Option Json) : List ModelInfo :=
  match resJson with
  | none => staticModels
  | some j =>
    if !truthy j then staticModels
    else
      let rawModels := extractRawModels j
      if rawModels.isEmpty then staticModels
      else
        let dynamic := dedupeByName ((rawModels.filter isChatModel).map mapModel) []
        if dynamic.isEmpty then staticModels else dynamic

/-- `TogetherProvider.getDynamicModels`, with the HTTP transport passed as an
explicit parameter. -/
def getDynamicModels (apiKeys : Option Store) (settings : Option ProviderSetting)
    (serverEnv : Store) (t : Transport) : List ModelInfo :=
  let fetched := getProviderBaseUrlAndKey "AgentRouter" apiKeys settings serverEnv
    "ANTHROPIC_BASE_URL" "ANTHROPIC_API_KEY"
  let b0 : Option String :=
    match fetched.1 with
    | some s => if s = "" then some s else some (jsTrim s)
    | none => none
  let baseUrl : String :=
    jsOrD (jsOrS b0 (storeGet serverEnv "ANTHROPIC_BASE_URL")) "https://agentrouter.org/"
  let key : Option String :=
    jsOrS fetched.2 (jsOrS (storeGet serverEnv "ANTHROPIC_API_KEY")
      (jsOrS (storeGet serverEnv "AGENTROUTER_API_KEY")
        (jsOrS (apiKeys.bind (storeGet · "AgentRouter"))
          (apiKeys.bind (storeGet · "ANTHROPIC_API_KEY")))))
  match key with
  | none => staticModels
  | some k =>
    if baseUrl = "" || k = "" then staticModels
    else processBody (fetchLoop t k (endpoints baseUrl)).2

/-- The opaque client handle returned by `getOpenAILikeModel(baseUrl, apiKey,
model)` — construction binds the three values and performs no I/O. -/
structure Handle where
  baseUrl : String
  apiKey : String
  model : String
deriving DecidableEq

/-- The error message thrown by `TogetherProvider.getModelInstance` when no
credentials resolve; it enumerates every credential source that was tried
(the quote characters and the example block of the source literal are
elided). -/
def togetherMissingConfigMsg : String :=
  "Missing configuration for AgentRouter provider. Unable to find a baseUrl and/or apiKey. Tried: providerSettings[AgentRouter], providerSettings[Anthropic]; apiKeys[AgentRouter], apiKeys[ANTHROPIC_API_KEY], apiKeys[AGENTROUTER_API_KEY]; serverEnv.ANTHROPIC_API_KEY, serverEnv.AGENTROUTER_API_KEY, serverEnv.ANTHROPIC_BASE_URL. Please pass credentials in one of those places, or set environment variables ANTHROPIC_API_KEY and ANTHROPIC_BASE_URL."

/-- The credential resolution of `TogetherProvider.getModelInstance`: the
base-provider helper first, then the literal fallback chains of the source
(the `try`/`catch` around the helper is dead in the model, the helper being
total).  Returns `(baseUrl, apiKey)` as the plain strings the source ends up
with (`''` when unresolved). -/
def togetherResolveCreds (serverEnv apiKeys : Store)
    (providerSettings : List (String × ProviderSetting)) (procEnv : Store) :
    String × String :=
  let settingsSelf := settingsGet providerSettings "AgentRouter"
  let primary := getProviderBaseUrlAndKey "AgentRouter" (some apiKeys) settingsSelf
    serverEnv "ANTHROPIC_BASE_URL" "ANTHROPIC_API_KEY"
  let baseUrl0 := jsOrD primary.1 ""
  let apiKey0 := jsOrD primary.2 ""
  let apiKey :=
    if apiKey0 = "" then
      jsOrD (jsOrS (storeGet apiKeys "AgentRouter")
        (jsOrS (storeGet apiKeys "ANTHROPIC_API_KEY")
          (jsOrS (storeGet apiKeys "AGENTROUTER_API_KEY")
            (jsOrS (storeGet serverEnv "ANTHROPIC_API_KEY")
              (jsOrS (storeGet serverEnv "AGENTROUTER_API_KEY")
                (jsOrS (settingsSelf.bind (·.apiKey))
                  ((settingsGet providerSettings "Anthropic").bind (·.apiKey)))))))) ""
    else apiKey0
  let baseUrl :=
    if baseUrl0 = "" then
      jsOrD (jsOrS primary.1
        (jsOrS (settingsSelf.bind (·.baseUrl))
          (jsOrS (settingsSelf.bind (·.base_url))
            (jsOrS (storeGet serverEnv "ANTHROPIC_BASE_URL")
              (jsOrS (storeGet serverEnv "AGENTROUTER_BASE_URL")
                (storeGet procEnv "ANTHROPIC_BASE_URL")))))) "https://agentrouter.org/"
    else baseUrl0
  (baseUrl, apiKey)

/-- `TogetherProvider.getModelInstance`. -/
def togetherGetModelInstance (model : String) (serverEnv apiKeys : Store)
    (providerSettings : List (String × ProviderSetting)) (procEnv : Store) :
    Except String Handle :=
  let r := togetherResolveCreds serverEnv apiKeys providerSettings procEnv
  if r.1 = "" || r.2 = "" then .error togetherMissingConfigMsg
  else .ok ⟨r.1, r.2, model⟩

/-- The Bedrock "invalid format" configuration error message. -/
def invalidFormatMsg : String :=
  "Invalid AWS Bedrock configuration format. Please provide a valid JSON string containing region, accessKeyId, and secretAccessKey."

/-- The Bedrock "missing required fields" configuration error message. -/
def missingFieldsMsg : String :=
  "Missing required AWS credentials. Configuration must include region, accessKeyId, and secretAccessKey."

/-- A thrown JavaScript error: an `Error` with a message, or a runtime
`TypeError` (destructuring `null`). -/
inductive JsError where
  | err : String → JsError
  | typeError : JsError
deriving DecidableEq

instance {ε α : Type} [DecidableEq ε] [DecidableEq α] : DecidableEq (Except ε α) := fun a b =>
  match a, b with
  | .error e, .error f =>
    if h : e = f then isTrue (by subst h; rfl)
    else isFalse (by intro hh; injection hh; contradiction)
  | .ok x, .ok y =>
    if h : x = y then isTrue (by subst h; rfl)
    else isFalse (by intro hh; injection hh; contradiction)
  | .error _, .ok _ => isFalse (by intro hh; injection hh)
  | .ok _, .error _ => isFalse (by intro hh; injection hh)

/-- The `AWSBedRockConfig` record as built by `_parseAndValidateConfig`
(fields keep whatever JSON value the blob carried). -/
structure AWSBedRockConfig where
  region : Json
  accessKeyId : Json
  secretAccessKey : Json
  sessionToken : Option Json := none
deriving DecidableEq

/-- `AmazonBedrockProvider._parseAndValidateConfig`, with the `JSON.parse`
outcome as input (`none` = the string was not valid JSON, so `JSON.parse`
threw).  Destructuring a parsed `null` throws a `TypeError` (uncaught in the
source). -/
def parseAndValidateConfig (parsed : Option Json) : Except JsError AWSBedRockConfig :=
  match parsed with
  | none => .error (.err invalidFormatMsg)
  | some .null => .error .typeError
  | some j =>
    let region := j.getField "region"
    let accessKeyId := j.getField "accessKeyId"
    let secretAccessKey := j.getField "secretAccessKey"
    let sessionToken := j.getField "sessionToken"
    if !truthyO region || !truthyO accessKeyId || !truthyO secretAccessKey then
      .error (.err missingFieldsMsg)
    else
      .ok { region := region.getD .null,
            accessKeyId := accessKeyId.getD .null,
            secretAccessKey := secretAccessKey.getD .null,
            sessionToken := if truthyO sessionToken then sessionToken else none }

/-- Claim-side rendering of one candidate's request sequence, following the
claim's words: a GET with a bearer `Authorization` header, plus one retry of
the same URL with an `x-api-key` header exactly when the status is 401 or
403. -/
def candidateRequestsSpec (t : Transport) (key url : String) : List Request :=
  ⟨url, .bearer key⟩ ::
    (match t ⟨url, .bearer key⟩ with
     | .response s _ => if s = 401 || s = 403 then [⟨url, .xApiKey key⟩] else []
     | .networkError => [])

/-- Claim-side rendering of one candidate's outcome: the parsed body of the
OK response (of the retry when one was made), `none` on any network error,
non-OK status, or JSON parse failure. -/
def candidateOutcomeSpec (t : Transport) (key url : String) : Option Json :=
  match t ⟨url, .bearer key⟩ with
  | .networkError => none
  | .response s b =>
    if s = 401 || s = 403 then
      match t ⟨url, .xApiKey key⟩ with
      | .networkError => none
      | .response s2 b2 => if isOkStatus s2 then b2 else none
    else if isOkStatus s then b else none

/-- Claim-side rendering of the full request trace: candidates are attempted
in order, each contributing its own requests, stopping after the first
candidate that yields a parsed body. -/
def fetchTraceSpec (t : Transport) (key : String) : List String → List Request
  | [] => []
  | url :: rest =>
    candidateRequestsSpec t key url ++
      (if (candidateOutcomeSpec t key url).isSome then [] else fetchTraceSpec t key rest)

/-- Claim-side rendering of the fetched body: the first candidate's outcome
that is a parsed JSON body. -/
def fetchResultSpec (t : Transport) (key : String) (urls : List String) : Option Json :=
  urls.findSome? (candidateOutcomeSpec t key)

/-- The first array-valued field of `j` among an ordered list of keys. -/
def firstArrField (j : Json) : List String → Option (List Json)
  | [] => none
  | k :: ks =>
    match j.getField k with
    | some (.arr xs) => some xs
    | _ => firstArrField j ks

/-- Claim-side rendering of the response-shape normalization: the body itself
if it is an array, else the first array-valued field among `models`, `data`,
`result`, `items` probed in that order, else the first array found among all
top-level values, else nothing. -/
def extractRawModelsSpec (j : Json) : List Json :=
  match j with
  | .arr xs => xs
  | _ =>
    match firstArrField j ["models", "data", "result", "items"] with
    | some xs => xs
    | none =>
      match j.values.find? (fun v => match v with | .arr _ => true | _ => false) with
      | some (.arr xs) => xs
      | _ => []

/-- Claim-side rendering of the chat-capability filter: an entry with a
string `type` field is kept iff that field equals `"chat"` case-insensitively;
otherwise it is kept iff the lower-cased id-or-name contains one of the four
substrings. -/
def isChatModelSpec (m : Json) : Bool :=
  match m.getField "type" with
  | some (.str t) => lowerStr t == lowerStr "chat"
  | _ =>
    let id := lowerStr (jsToString ((jsOr (m.getField "id") (jsOr (m.getField "name")
      (some (.str "")))).getD .null))
    strIncludes id "chat" || strIncludes id "claude" ||
      strIncludes id "sonnet" || strIncludes id "assistant"

/-- The spec's mock transport for the dynamic-catalog example: the second
candidate URL answers `{data: [{id:"sonnet-1", type:"chat", context_length:
200000}]}`, every other request errors. -/
def sonnetEntry : Json :=
  .obj [("id", .str "sonnet-1"), ("type", .str "chat"), ("context_length", .num 200000)]

/-- The body served by `mockTransport`. -/
def sonnetBody : Json := .obj [("data", .arr [sonnetEntry])]

/-- The mock transport itself. -/
def mockTransport : Transport := fun r =>
  if r.url = "https://agentrouter.org/v1/models" then .response 200 (some sonnetBody)
  else .networkError

/-- A body carrying two chat entries whose ids are structurally equal empty
objects — in the program, two distinct allocations of `JSON.parse`. -/
def dupObjIdBody : Json :=
  .obj [("data", .arr [.obj [("id", .obj []), ("type", .str "chat")],
                       .obj [("id", .obj []), ("type", .str "chat")]])]

/-- A transport serving `dupObjIdBody` on the first candidate URL. -/
def dupObjTransport : Transport := fun r =>
  if r.url = "https://agentrouter.org/v1beta/models" then .response 200 (some dupObjIdBody)
  else .networkError

/-- The opaque handle returned by `createAmazonBedrock(config)(model)`. -/
structure BedrockHandle where
  config : AWSBedRockConfig
  model : String
deriving DecidableEq

/-- The apiKey resolution of `AmazonBedrockProvider.getModelInstance` (the
blob string under `AWS_BEDROCK_CONFIG`). -/
def bedrockResolvedKey (apiKeys : Option Store) (settings : Option ProviderSetting)
    (serverEnv : Store) : Option String :=
  (getProviderBaseUrlAndKey "AmazonBedrock" apiKeys settings serverEnv ""
    "AWS_BEDROCK_CONFIG").2

/-- `AmazonBedrockProvider.getModelInstance`; `jsonParse` is the `JSON.parse`
builtin, modelled as an uninterpreted total function (`none` = throw). -/
def bedrockGetModelInstance (jsonParse : String → Option Json) (model : String)
    (serverEnv : Store) (apiKeys : Option Store)
    (providerSettings : List (String × ProviderSetting)) :
    Except JsError BedrockHandle :=
  match bedrockResolvedKey apiKeys (settingsGet providerSettings "AmazonBedrock") serverEnv with
  | none => .error (.err "Missing API key for AmazonBedrock provider")
  | some k =>
    if k = "" then .error (.err "Missing API key for AmazonBedrock provider")
    else
      match parseAndValidateConfig (jsonParse k) with
      | .error e => .error e
      | .ok c => .ok ⟨c, model⟩

/-! ## Theorems -/

theorem tryEndpoint_eq_spec (t : Transport) (key url : String) :
    tryEndpoint t key url = (candidateRequestsSpec t key url, candidateOutcomeSpec t key url) := by
  unfold tryEndpoint candidateRequestsSpec candidateOutcomeSpec
  cases h1 : t ⟨url, .bearer key⟩ with
  | networkError => rfl
  | response s b =>
    simp only []
    split
    · cases h2 : t ⟨url, .xApiKey key⟩ with
      | networkError => rfl
      | response s2 b2 =>
        split
        · simp_all
        · split <;> rfl
    · split <;> simp_all

theorem tryEndpoint_none_of_failing (t : Transport) (key url : String)
    (hf : ∀ r, (t r).failing = true) : (tryEndpoint t key url).2 = none := by
  have hb := hf ⟨url, .bearer key⟩
  have hb2 := hf ⟨url, .xApiKey key⟩
  unfold tryEndpoint
  cases h1 : t ⟨url, .bearer key⟩ with
  | networkError => rfl
  | response s b =>
    rw [h1] at hb
    simp only [FetchOutcome.failing, Bool.or_eq_true, Bool.not_eq_true'] at hb
    simp only []
    split
    · cases h2 : t ⟨url, .xApiKey key⟩ with
      | networkError => rfl
      | response s2 b2 =>
        rw [h2] at hb2
        simp only [FetchOutcome.failing, Bool.or_eq_true, Bool.not_eq_true'] at hb2
        split
        · simp_all
        · rcases hb2 with h | h <;> simp_all [Option.isNone_iff_eq_none]
    · split <;> simp_all [Option.isNone_iff_eq_none]

theorem fetchLoop_eq_spec (t : Transport) (key : String) :
    ∀ urls, fetchLoop t key urls = (fetchTraceSpec t key urls, fetchResultSpec t key urls)
  | [] => rfl
  | url :: rest => by
    unfold fetchLoop fetchTraceSpec fetchResultSpec
    rw [tryEndpoint_eq_spec, List.findSome?_cons]
    cases h : candidateOutcomeSpec t key url with
    | some j => simp [h]
    | none => simp [h, fetchLoop_eq_spec t key rest, fetchResultSpec]

theorem fetchLoop_none_of_failing (t : Transport) (key : String)
    (hf : ∀ r, (t r).failing = true) :
    ∀ urls, (fetchLoop t key urls).2 = none
  | [] => rfl
  | url :: rest => by
    unfold fetchLoop
    cases hres : tryEndpoint t key url with
    | mk reqs res =>
      have h0 := tryEndpoint_none_of_failing t key url hf
      rw [hres] at h0
      simp only at h0
      subst h0
      simp [fetchLoop_none_of_failing t key hf rest]

/-- C1: `getDynamicModels` never raises — every failure path degrades to a
returned list of records — and when every candidate request fails (network
error, non-OK status, or unparseable body, on every URL and header style),
it returns the provider's static model list unchanged, for every combination
of credential sources. -/
theorem getDynamicModels_total_failure (apiKeys : Option Store)
    (settings : Option ProviderSetting) (serverEnv : Store) (t : Transport)
    (hf : ∀ r, (t r).failing = true) :
    getDynamicModels apiKeys settings serverEnv t = staticModels := by
  simp only [getDynamicModels]
  split
  · rfl
  · split
    · rfl
    · rw [fetchLoop_none_of_failing t _ hf]
      rfl

/-- Witness for C1 at a concrete input: a transport that always throws. -/
theorem getDynamicModels_total_failure_witness :
    getDynamicModels (some [("AgentRouter", "k")]) none [] (fun _ => .networkError) =
      staticModels :=
  getDynamicModels_total_failure (some [("AgentRouter", "k")]) none []
    (fun _ => .networkError) (fun _ => rfl)

/-- Claim C4: the dynamic catalog fetch tries exactly the three candidate
URLs built by appending `/v1beta/models`, `/v1/models`, `/models`, in that
order, to the base URL with its trailing slash stripped; and the endpoint
loop behaves exactly as the claim describes it (`fetchTraceSpec` and
`fetchResultSpec` are transcribed from the claim's words): each candidate in
order gets a GET with a bearer `Authorization` header, retried once against
the same URL with an `x-api-key` header exactly when the status is 401 or
403, the loop stopping at the first candidate yielding an OK response with a
parseable JSON body and continuing past network errors, non-OK statuses and
JSON parse failures. -/
theorem dynamic_fetch_follows_candidate_order (baseUrl : String) (t : Transport)
    (key : String) (urls : List String) :
    endpoints baseUrl =
      [stripTrailingSlash baseUrl ++ "/v1beta/models",
       stripTrailingSlash baseUrl ++ "/v1/models",
       stripTrailingSlash baseUrl ++ "/models"]
    ∧ fetchLoop t key urls = (fetchTraceSpec t key urls, fetchResultSpec t key urls) :=
  ⟨rfl, fetchLoop_eq_spec t key urls⟩

theorem probe_push (j : Json) (k : String) (ks : List String) (scan : List Json) :
    (match firstArrField j (k :: ks) with | some xs => xs | none => scan) =
    (match j.getField k with
     | some (.arr xs) => xs
     | _ => match firstArrField j ks with | some xs => xs | none => scan) := by
  simp only [firstArrField]
  cases j.getField k with
  | none => rfl
  | some v => cases v <;> rfl

theorem extractRawModels_eq_spec : ∀ j, extractRawModels j = extractRawModelsSpec j := by
  intro j
  cases j with
  | arr xs => rfl
  | null => rfl
  | bool b => rfl
  | num n => rfl
  | str s => rfl
  | obj fs =>
    unfold extractRawModels extractRawModelsSpec
    rw [probe_push, probe_push, probe_push, probe_push]
    rfl

theorem processBody_static_of_extract_empty (j : Json) (h : extractRawModels j = []) :
    processBody (some j) = staticModels := by
  unfold processBody
  by_cases ht : truthy j
  · simp [ht, h]
  · simp [ht]

theorem isChatModel_eq_spec : ∀ m, isChatModel m = isChatModelSpec m := by
  intro m
  cases m with
  | null => rfl
  | bool b => cases b <;> rfl
  | num n =>
    unfold isChatModel isChatModelSpec
    split <;> rfl
  | str s =>
    unfold isChatModel isChatModelSpec
    split <;> rfl
  | arr xs => rfl
  | obj fs => rfl

/-- Claim C5: for every JSON body, the raw model sequence is the body itself
if it is an array, otherwise the first array-valued field among `models`,
`data`, `result`, `items` probed in that order, otherwise the first array
found among all top-level values (`extractRawModelsSpec` transcribes the
claim's words); and if no array is found, or the found array is empty, the
static model list is returned. -/
theorem response_shape_normalization :
    (∀ j, extractRawModels j = extractRawModelsSpec j)
    ∧ ∀ j, extractRawModels j = [] → processBody (some j) = staticModels :=
  ⟨extractRawModels_eq_spec, processBody_static_of_extract_empty⟩

/-- Witness for claim C5 at a concrete body whose extraction is empty. -/
theorem response_shape_normalization_witness :
    extractRawModels (Json.obj [("data", Json.arr [])]) =
      extractRawModelsSpec (Json.obj [("data", Json.arr [])])
    ∧ processBody (some (Json.obj [("data", Json.arr [])])) = staticModels :=
  ⟨response_shape_normalization.1 _, response_shape_normalization.2 _ (by decide)⟩

/-- Claim C6: for every raw model entry, if it carries a string `type` field
the entry is kept iff that field equals `"chat"` case-insensitively;
otherwise it is kept iff the lower-cased id-or-name contains one of the
substrings `"chat"`, `"claude"`, `"sonnet"`, `"assistant"`
(`isChatModelSpec` transcribes the claim's words). -/
theorem chat_capability_filter : ∀ m, isChatModel m = isChatModelSpec m :=
  isChatModel_eq_spec

theorem sameKey_eq : ∀ a b : Json, sameKey a b = true → a = b := by
  intro a b h
  cases a <;> cases b <;> simp_all [sameKey]

theorem sameKeyO_eq : ∀ x y : Option Json, sameKeyO x y = true → x = y
  | none, none, _ => rfl
  | none, some _, h => by simp [sameKeyO] at h
  | some _, none, h => by simp [sameKeyO] at h
  | some a, some b, h => by rw [sameKey_eq a b (by simpa [sameKeyO] using h)]

theorem sameKey_refl_prim (j : Json) (h : isPrimKey j = true) : sameKey j j = true := by
  cases j <;> simp_all [sameKey, isPrimKey]

theorem sameKey_nonprim (a j : Json) (h : isPrimKey j = false) : sameKey a j = false := by
  cases a <;> cases j <;> simp_all [sameKey, isPrimKey]

theorem sameKeyO_falsy (x nm : Option Json) (hnm : truthyO nm = true)
    (hx : truthyO x = false) : sameKeyO x nm = false := by
  by_contra hc
  simp only [Bool.not_eq_false] at hc
  rw [sameKeyO_eq x nm hc] at hx
  rw [hnm] at hx
  exact absurd hx (by simp)

theorem seenHas_nonprim : ∀ (seen : List (Option Json)) (j : Json), isPrimKey j = false →
    seenHas seen (some j) = false
  | [], _, _ => rfl
  | x :: rest, j, h => by
    simp only [seenHas, Bool.or_eq_false_iff]
    refine ⟨?_, seenHas_nonprim rest j h⟩
    cases x with
    | none => rfl
    | some a => exact sameKey_nonprim a j h

theorem dedupeByName_sublist : ∀ (l : List ModelInfo) (seen : List (Option Json)),
    (dedupeByName l seen).Sublist l
  | [], _ => List.Sublist.slnil
  | mi :: rest, seen => by
    unfold dedupeByName
    split
    · exact (dedupeByName_sublist rest seen).cons mi
    · split
      · exact (dedupeByName_sublist rest seen).cons mi
      · exact (dedupeByName_sublist rest _).cons₂ mi

theorem dedupeByName_mem : ∀ (l : List ModelInfo) (seen : List (Option Json)),
    ∀ b ∈ dedupeByName l seen, truthyO b.name = true ∧ seenHas seen b.name = false
  | [], _ => by simp [dedupeByName]
  | mi :: rest, seen => by
    unfold dedupeByName
    split
    · exact dedupeByName_mem rest seen
    · split
      · exact dedupeByName_mem rest seen
      · intro b hb
        rcases List.mem_cons.mp hb with h | h
        · subst h
          refine ⟨by simp_all, by simp_all⟩
        · have h2 := dedupeByName_mem rest (mi.name :: seen) b h
          refine ⟨h2.1, ?_⟩
          have h3 := h2.2
          simp only [seenHas, Bool.or_eq_false_iff] at h3
          exact h3.2

theorem dedupeByName_pairwise : ∀ (l : List ModelInfo) (seen : List (Option Json)),
    (dedupeByName l seen).Pairwise (fun a b => sameKeyO a.name b.name = false)
  | [], _ => by simp [dedupeByName]
  | mi :: rest, seen => by
    unfold dedupeByName
    split
    · exact dedupeByName_pairwise rest seen
    · split
      · exact dedupeByName_pairwise rest seen
      · refine List.Pairwise.cons ?_ (dedupeByName_pairwise rest (mi.name :: seen))
        intro b hb
        have h2 := (dedupeByName_mem rest (mi.name :: seen) b hb).2
        simp only [seenHas, Bool.or_eq_false_iff] at h2
        exact h2.1

theorem dedupeByName_find : ∀ (l : List ModelInfo) (seen : List (Option Json)) (nm : Option Json),
    truthyO nm = true → seenHas seen nm = false →
    (dedupeByName l seen).find? (fun b => sameKeyO b.name nm) =
      l.find? (fun b => sameKeyO b.name nm)
  | [], _, _ => by intro _ _; simp [dedupeByName]
  | mi :: rest, seen, nm => by
    intro hnm hns
    unfold dedupeByName
    split
    · rename_i hfalsy
      have hf : sameKeyO mi.name nm = false :=
        sameKeyO_falsy mi.name nm hnm (by simpa using hfalsy)
      rw [dedupeByName_find rest seen nm hnm hns, List.find?_cons]
      simp [hf]
    · split
      · rename_i hseen
        have hf : sameKeyO mi.name nm = false := by
          by_contra hc
          simp only [Bool.not_eq_false] at hc
          rw [sameKeyO_eq mi.name nm hc] at hseen
          simp_all
        rw [dedupeByName_find rest seen nm hnm hns, List.find?_cons]
        simp [hf]
      · by_cases hk : sameKeyO mi.name nm = true
        · simp [List.find?_cons, hk]
        · have hk2 : sameKeyO mi.name nm = false := by simpa using hk
          have hrec := dedupeByName_find rest (mi.name :: seen) nm hnm
            (by simp [seenHas, hk2, hns])
          simp [List.find?_cons, hk2, hrec]

theorem dedupeByName_keeps_nonprim : ∀ (l : List ModelInfo) (seen : List (Option Json))
    (mi : ModelInfo) (j : Json), mi ∈ l → mi.name = some j → truthy j = true →
    isPrimKey j = false → mi ∈ dedupeByName l seen
  | [], _, _, _ => by intro h; cases h
  | mi2 :: rest, seen, mi, j => by
    intro hmem hname htr hnp
    unfold dedupeByName
    rcases List.mem_cons.mp hmem with h | h
    · subst h
      have h1 : (!truthyO mi.name) = false := by
        rw [hname]; simp [truthyO, htr]
      have h2 : seenHas seen mi.name = false := by
        rw [hname]; exact seenHas_nonprim seen j hnp
      simp only [h1, h2]
      simp
    · split
      · exact dedupeByName_keeps_nonprim rest seen mi j h hname htr hnp
      · split
        · exact dedupeByName_keeps_nonprim rest seen mi j h hname htr hnp
        · exact List.mem_cons_of_mem _
            (dedupeByName_keeps_nonprim rest (mi2.name :: seen) mi j h hname htr hnp)

theorem processBody_pairwise (r : Option Json) :
    (processBody r).Pairwise (fun a b => sameKeyO a.name b.name = false) := by
  have hstatic : staticModels.Pairwise
      (fun a b : ModelInfo => sameKeyO a.name b.name = false) := by
    simp [staticModels]
  simp only [processBody]
  split
  · exact hstatic
  · split
    · exact hstatic
    · split
      · exact hstatic
      · split
        · exact hstatic
        · exact dedupeByName_pairwise _ _

theorem getDynamicModels_pairwise (apiKeys : Option Store) (settings : Option ProviderSetting)
    (serverEnv : Store) (t : Transport) :
    (getDynamicModels apiKeys settings serverEnv t).Pairwise
      (fun a b => sameKeyO a.name b.name = false) := by
  simp only [getDynamicModels]
  split
  · simp [staticModels]
  · split
    · simp [staticModels]
    · exact processBody_pairwise _

/-- Claim C8 fails as stated: the source de-duplicates through a JavaScript
`Map`, whose keys compare by SameValueZero — reference identity on objects —
and `JSON.parse` never aliases; so the two entries of `dupObjIdBody`, whose
ids are structurally equal empty objects but distinct allocations, are
distinct `Map` keys: both survive, and the returned catalog carries two
records with equal `name`s, refuting the claimed uniqueness of
`ModelRecord.name` within a catalog result. -/
theorem dedupe_name_unique_counterexample :
    (getDynamicModels (some [("AgentRouter", "k")]) none [] dupObjTransport).map (·.name) =
      [some (Json.obj []), some (Json.obj [])]
    ∧ ¬ (getDynamicModels (some [("AgentRouter", "k")]) none [] dupObjTransport).Pairwise
        (fun a b => a.name ≠ b.name) := by
  constructor
  · decide
  · decide

/-- Claim C8 (amended): de-duplication is keyed on the `Map`'s SameValueZero
equality — primitive names compare by value, object/array names by
reference, which `JSON.parse` never aliases.  Every sequence returned by the
dynamic catalog is pairwise distinct with respect to that key equality; in
particular no two returned records ever share a primitive (e.g. string)
name.  The de-duplicated sequence is a sublist of the mapped sequence, so
encounter order of surviving records is preserved; for every truthy name,
the surviving record matching it is exactly the first mapped entry matching
it (first-seen wins); and every entry with a truthy object- or array-valued
name survives. -/
theorem dedupe_name_unique :
    (∀ (apiKeys : Option Store) (settings : Option ProviderSetting) (serverEnv : Store)
        (t : Transport),
      (getDynamicModels apiKeys settings serverEnv t).Pairwise
        (fun a b => sameKeyO a.name b.name = false))
    ∧ (∀ (apiKeys : Option Store) (settings : Option ProviderSetting) (serverEnv : Store)
        (t : Transport),
      (getDynamicModels apiKeys settings serverEnv t).Pairwise
        (fun a b => ∀ j, isPrimKey j = true → a.name = some j → b.name ≠ some j))
    ∧ (∀ l : List ModelInfo, (dedupeByName l []).Sublist l)
    ∧ (∀ (l : List ModelInfo) (nm : Option Json), truthyO nm = true →
        (dedupeByName l []).find? (fun b => sameKeyO b.name nm) =
          l.find? (fun b => sameKeyO b.name nm))
    ∧ (∀ (l : List ModelInfo) (mi : ModelInfo) (j : Json), mi ∈ l →
        mi.name = some j → truthy j = true → isPrimKey j = false →
        mi ∈ dedupeByName l []) := by
  refine ⟨getDynamicModels_pairwise, ?_, fun l => dedupeByName_sublist l [],
    fun l nm h => dedupeByName_find l [] nm h rfl,
    fun l mi j hm hn ht hp => dedupeByName_keeps_nonprim l [] mi j hm hn ht hp⟩
  intro apiKeys settings serverEnv t
  refine (getDynamicModels_pairwise apiKeys settings serverEnv t).imp ?_
  intro a b hab j hp ha hb
  rw [ha, hb] at hab
  have : sameKeyO (some j) (some j) = true := by
    simp [sameKeyO, sameKey_refl_prim j hp]
  rw [this] at hab
  exact absurd hab (by simp)

/-- Witness for the amended claim C8: two mapped entries sharing a string
name, where first-seen wins. -/
theorem dedupe_name_unique_witness :
    (dedupeByName [mapModel sonnetEntry, mapModel sonnetEntry] []).find?
        (fun b => sameKeyO b.name (some (Json.str "sonnet-1"))) =
      [mapModel sonnetEntry, mapModel sonnetEntry].find?
        (fun b => sameKeyO b.name (some (Json.str "sonnet-1"))) :=
  dedupe_name_unique.2.2.2.1 _ _ (by decide)

/-- The claim C2 counterexample blob: a valid JSON object carrying all three
required fields, with `region` present but empty. -/
def emptyRegionCfg : Json :=
  .obj [("region", .str ""), ("accessKeyId", .str "a"), ("secretAccessKey", .str "b")]

/-- Claim C2 fails as stated: this valid JSON object has all three required
fields present, yet parsing fails with the "missing required fields" error,
because the source tests JavaScript truthiness (`!region`) and the empty
string is falsy. -/
theorem blob_parse_counterexample :
    (emptyRegionCfg.getField "region").isSome = true
    ∧ (emptyRegionCfg.getField "accessKeyId").isSome = true
    ∧ (emptyRegionCfg.getField "secretAccessKey").isSome = true
    ∧ parseAndValidateConfig (some emptyRegionCfg) = .error (.err missingFieldsMsg) := by
  refine ⟨rfl, rfl, rfl, ?_⟩
  decide

/-- Claim C2 (amended): for every input that is not valid JSON, parsing
fails with the distinct "invalid format" error; for every valid JSON object
in which any of `region`, `accessKeyId`, `secretAccessKey` is missing or
falsy (in particular empty), it fails with the "missing required fields"
error; and for every valid JSON object whose three required fields are
present and truthy (non-empty), parsing succeeds and the returned config
contains `sessionToken` iff it was present and truthy (for a string token:
present and non-empty) in the input. -/
theorem blob_parse_amended :
    parseAndValidateConfig none = .error (.err invalidFormatMsg)
    ∧ invalidFormatMsg ≠ missingFieldsMsg
    ∧ (∀ fs, (truthyO ((Json.obj fs).getField "region") = false
          ∨ truthyO ((Json.obj fs).getField "accessKeyId") = false
          ∨ truthyO ((Json.obj fs).getField "secretAccessKey") = false) →
        parseAndValidateConfig (some (Json.obj fs)) = .error (.err missingFieldsMsg))
    ∧ (∀ fs, truthyO ((Json.obj fs).getField "region") = true →
        truthyO ((Json.obj fs).getField "accessKeyId") = true →
        truthyO ((Json.obj fs).getField "secretAccessKey") = true →
        ∃ c, parseAndValidateConfig (some (Json.obj fs)) = .ok c
          ∧ (c.sessionToken.isSome = true ↔
              truthyO ((Json.obj fs).getField "sessionToken") = true)) := by
  refine ⟨rfl, by decide, ?_, ?_⟩
  · intro fs h
    simp only [parseAndValidateConfig]
    rcases h with h | h | h <;> simp [h]
  · intro fs h1 h2 h3
    simp only [parseAndValidateConfig, h1, h2, h3]
    refine ⟨_, rfl, ?_⟩
    by_cases hs : truthyO ((Json.obj fs).getField "sessionToken") = true
    · simp only [hs, if_true, iff_true]
      cases hgf : (Json.obj fs).getField "sessionToken" with
      | none => rw [hgf] at hs; simp [truthyO] at hs
      | some v => simp
    · simp only [Bool.not_eq_true] at hs
      simp [hs]

/-- Witness for the amended claim C2 at concrete blobs. -/
theorem blob_parse_amended_witness :
    parseAndValidateConfig (some (Json.obj [("region", Json.str "")])) =
        .error (.err missingFieldsMsg)
    ∧ ∃ c, parseAndValidateConfig (some (Json.obj [("region", Json.str "r"),
          ("accessKeyId", Json.str "a"), ("secretAccessKey", Json.str "b"),
          ("sessionToken", Json.str "t")])) = .ok c
        ∧ (c.sessionToken.isSome = true ↔
            truthyO ((Json.obj [("region", Json.str "r"), ("accessKeyId", Json.str "a"),
              ("secretAccessKey", Json.str "b"),
              ("sessionToken", Json.str "t")]).getField "sessionToken") = true) :=
  ⟨blob_parse_amended.2.2.1 _ (Or.inl (by decide)),
   blob_parse_amended.2.2.2 _ (by decide) (by decide) (by decide)⟩

theorem truthyS_some (v : String) : truthyS (some v) = (v != "") := rfl

/-- Claim C3 (spec-modelled: `getProviderBaseUrlAndKey` is not among the
source files and is modelled from spec section 4.1): credential resolution
follows the fixed precedence with the first non-empty value winning,
evaluated independently for apiKey and baseUrl — the value under the
provider's own name in the explicit key map beats the shared/default key
name, which beats named provider settings, which beat process-environment
values; in particular resolving for `ProviderX` with
`explicitKeys = [(ProviderX, A), (SHARED_KEY, B)]` and default key
`SHARED_KEY` yields `A`. -/
theorem credential_precedence (name dk dbk : String) (apiKeys : Store)
    (settings : Option ProviderSetting) (serverEnv : Store) :
    (∀ v, storeGet apiKeys name = some v → v ≠ "" →
      (getProviderBaseUrlAndKey name (some apiKeys) settings serverEnv dbk dk).2 = some v)
    ∧ (truthyS (storeGet apiKeys name) = false →
       ∀ v, storeGet apiKeys dk = some v → v ≠ "" →
        (getProviderBaseUrlAndKey name (some apiKeys) settings serverEnv dbk dk).2 = some v)
    ∧ (truthyS (storeGet apiKeys name) = false → truthyS (storeGet apiKeys dk) = false →
       ∀ v, settings.bind (·.apiKey) = some v → v ≠ "" →
        (getProviderBaseUrlAndKey name (some apiKeys) settings serverEnv dbk dk).2 = some v)
    ∧ (truthyS (storeGet apiKeys name) = false → truthyS (storeGet apiKeys dk) = false →
       truthyS (settings.bind (·.apiKey)) = false →
        (getProviderBaseUrlAndKey name (some apiKeys) settings serverEnv dbk dk).2 =
          storeGet serverEnv dk)
    ∧ (∀ v, settings.bind (·.baseUrl) = some v → v ≠ "" →
        (getProviderBaseUrlAndKey name (some apiKeys) settings serverEnv dbk dk).1 = some v)
    ∧ (truthyS (settings.bind (·.baseUrl)) = false →
        (getProviderBaseUrlAndKey name (some apiKeys) settings serverEnv dbk dk).1 =
          storeGet serverEnv dbk)
    ∧ (getProviderBaseUrlAndKey "ProviderX" (some [("ProviderX", "A"), ("SHARED_KEY", "B")])
        none [] "" "SHARED_KEY").2 = some "A" := by
  refine ⟨?_, ?_, ?_, ?_, ?_, ?_, by decide⟩
  · intro v hv hne
    simp [getProviderBaseUrlAndKey, hv, jsOrS, truthyS_some, hne]
  · intro h0 v hv hne
    simp [getProviderBaseUrlAndKey, h0, hv, jsOrS, truthyS_some, hne]
  · intro h0 h1 v hv hne
    simp [getProviderBaseUrlAndKey, h0, h1, hv, jsOrS, truthyS_some, hne]
  · intro h0 h1 h2
    simp [getProviderBaseUrlAndKey, h0, h1, h2, jsOrS]
  · intro v hv hne
    simp [getProviderBaseUrlAndKey, hv, jsOrS, truthyS_some, hne]
  · intro h0
    simp [getProviderBaseUrlAndKey, h0, jsOrS]

/-- Witness for claim C3: the claim's own concrete example. -/
theorem credential_precedence_witness :
    (getProviderBaseUrlAndKey "ProviderX" (some [("ProviderX", "A"), ("SHARED_KEY", "B")])
      none [] "" "SHARED_KEY").2 = some "A" :=
  (credential_precedence "ProviderX" "SHARED_KEY" "" [("ProviderX", "A"), ("SHARED_KEY", "B")]
    none []).1 "A" rfl (by decide)

/-- The claim C7 counterexample entry: a chat entry whose numeric
`context_length` is `0`. -/
def zeroCtxEntry : Json :=
  .obj [("id", .str "x"), ("type", .str "chat"), ("context_length", .num 0)]

/-- Claim C7 fails as stated: for `{id:"x", type:"chat", context_length: 0}`
a numeric context field exists under `context_length`, so the claim requires
the label to carry the suffix `" - context 0k"`, yet the label is plain
`"x"` — the source guards the suffix with JavaScript truthiness
(`ctx ? ... : ''`) and `0` is falsy. -/
theorem context_suffix_counterexample :
    ctxOf zeroCtxEntry = some 0
    ∧ (mapModel zeroCtxEntry).label = "x"
    ∧ (mapModel zeroCtxEntry).label ≠ "x - context 0k" := by
  refine ⟨by decide, by decide, by decide⟩

/-- Claim C7 (amended): for every mapped entry, `maxTokenAllowed` equals the
numeric context length when present and 8000 otherwise; `maxCompletionTokens`
equals `min(8192, maxTokenAllowed or 8192)`; the label is the display value
followed by the price suffix and the context suffix; the context suffix
`" - context Nk"` with `N = floor(ctx / 1000)` is omitted exactly when no
numeric context field exists under `context_length` or `context` or when its
value is `0` (JavaScript falsiness); and for the mock transport returning
`{data: [{id:"sonnet-1", type:"chat", context_length: 200000}]}` on the
second candidate URL and errors elsewhere, the result is one record with
name `"sonnet-1"`, `maxTokenAllowed = 200000`,
`maxCompletionTokens = 8192`. -/
theorem mapped_entry_numbers :
    (∀ m, (mapModel m).maxTokenAllowed = (ctxOf m).getD 8000)
    ∧ (∀ m, (mapModel m).maxCompletionTokens =
        some (min 8192 (if (ctxOf m).getD 8000 = 0 then 8192 else (ctxOf m).getD 8000)))
    ∧ (∀ m, (mapModel m).label = jsToString (displayOf m) ++ pricePartOf m ++ ctxLabelOf m)
    ∧ (∀ m, (ctxOf m = none ∨ ctxOf m = some 0) → ctxLabelOf m = "")
    ∧ (∀ m n, ctxOf m = some n → n ≠ 0 →
        ctxLabelOf m = " - context " ++ toString (Int.fdiv n 1000) ++ "k")
    ∧ getDynamicModels (some [("AgentRouter", "k")]) none [] mockTransport =
        [{ name := some (.str "sonnet-1"),
           label := "sonnet-1 - context 200k",
           provider := "AgentRouter",
           maxTokenAllowed := 200000,
           maxCompletionTokens := some 8192,
           raw := some sonnetEntry }] := by
  refine ⟨fun m => rfl, fun m => rfl, fun m => rfl, ?_, ?_, by decide⟩
  · intro m h
    unfold ctxLabelOf
    rcases h with h | h <;> simp [h]
  · intro m n h hne
    unfold ctxLabelOf
    simp [h, hne]

/-- Witness for the amended claim C7 at concrete entries. -/
theorem mapped_entry_numbers_witness :
    ctxLabelOf zeroCtxEntry = ""
    ∧ ctxLabelOf sonnetEntry = " - context " ++ toString (Int.fdiv 200000 1000) ++ "k" :=
  ⟨mapped_entry_numbers.2.2.2.1 zeroCtxEntry (Or.inr (by decide)),
   mapped_entry_numbers.2.2.2.2.1 sonnetEntry 200000 (by decide) (by decide)⟩

theorem jsOrD_ne_of_default_ne (a : Option String) (d : String) (hd : d ≠ "") :
    jsOrD a d ≠ "" := by
  unfold jsOrD
  cases a with
  | none => exact hd
  | some s => by_cases h : s = "" <;> simp [h, hd]

theorem togetherResolveCreds_baseUrl_ne (serverEnv apiKeys : Store)
    (providerSettings : List (String × ProviderSetting)) (procEnv : Store) :
    (togetherResolveCreds serverEnv apiKeys providerSettings procEnv).1 ≠ "" := by
  simp only [togetherResolveCreds]
  split
  · exact jsOrD_ne_of_default_ne _ _ (by decide)
  · rename_i h
    exact h

/-- Claim C9: whenever neither apiKey nor baseUrl resolves (for the
AgentRouter provider the resolved apiKey being empty), `getModelInstance`
returns the configuration error whose message enumerates the attempted
credential sources, and never a partially-built handle; on successful
resolution it returns a handle bound to the resolved endpoint, key and
requested model.  For the Bedrock provider: an unresolved blob yields the
missing-key error, and a resolved blob yields exactly the parse outcome,
bound to the parsed config and requested model.  Both models are pure:
construction performs no network call. -/
theorem model_instance_configuration_errors :
    (∀ (model : String) (serverEnv apiKeys : Store)
        (providerSettings : List (String × ProviderSetting)) (procEnv : Store),
      ((togetherResolveCreds serverEnv apiKeys providerSettings procEnv).2 = "" →
        togetherGetModelInstance model serverEnv apiKeys providerSettings procEnv =
          .error togetherMissingConfigMsg)
      ∧ ((togetherResolveCreds serverEnv apiKeys providerSettings procEnv).2 ≠ "" →
        togetherGetModelInstance model serverEnv apiKeys providerSettings procEnv =
          .ok ⟨(togetherResolveCreds serverEnv apiKeys providerSettings procEnv).1,
               (togetherResolveCreds serverEnv apiKeys providerSettings procEnv).2, model⟩))
    ∧ (∀ (jsonParse : String → Option Json) (model : String) (serverEnv : Store)
        (apiKeys : Option Store) (providerSettings : List (String × ProviderSetting)),
      (truthyS (bedrockResolvedKey apiKeys (settingsGet providerSettings "AmazonBedrock")
          serverEnv) = false →
        bedrockGetModelInstance jsonParse model serverEnv apiKeys providerSettings =
          .error (.err "Missing API key for AmazonBedrock provider"))
      ∧ (∀ k, bedrockResolvedKey apiKeys (settingsGet providerSettings "AmazonBedrock")
            serverEnv = some k → k ≠ "" →
          bedrockGetModelInstance jsonParse model serverEnv apiKeys providerSettings =
            (parseAndValidateConfig (jsonParse k)).map fun c => ⟨c, model⟩)) := by
  constructor
  · intro model serverEnv apiKeys providerSettings procEnv
    constructor
    · intro h2
      simp [togetherGetModelInstance, h2]
    · intro h2
      have hb := togetherResolveCreds_baseUrl_ne serverEnv apiKeys providerSettings procEnv
      simp [togetherGetModelInstance, h2, hb]
  · intro jsonParse model serverEnv apiKeys providerSettings
    constructor
    · intro h
      unfold bedrockGetModelInstance
      cases hk : bedrockResolvedKey apiKeys (settingsGet providerSettings "AmazonBedrock")
          serverEnv with
      | none => rfl
      | some k =>
        rw [hk] at h
        rw [truthyS_some] at h
        simp only [bne_eq_false_iff_eq] at h
        simp [h]
    · intro k hk hne
      unfold bedrockGetModelInstance
      rw [hk]
      simp only [hne, if_false]
      cases parseAndValidateConfig (jsonParse k) <;> simp [Except.map]

/-- Witness for claim C9 with empty credential sources for both
providers. -/
theorem model_instance_configuration_errors_witness :
    togetherGetModelInstance "m" [] [] [] [] = .error togetherMissingConfigMsg
    ∧ bedrockGetModelInstance (fun _ => none) "m" [] none [] =
        .error (.err "Missing API key for AmazonBedrock provider") :=
  ⟨(model_instance_configuration_errors.1 "m" [] [] [] []).1 (by decide),
   (model_instance_configuration_errors.2 (fun _ => none) "m" [] none []).1 (by decide)⟩

/-- Claim C10: in `TogetherProvider.getModelInstance` the resolved baseUrl
is always non-empty (the chain ends in the literal default
`https://agentrouter.org/`), and the configuration error is thrown iff the
apiKey resolves to empty — a missing base URL alone can never cause the
failure. -/
theorem together_baseUrl_always_resolves :
    ∀ (model : String) (serverEnv apiKeys : Store)
      (providerSettings : List (String × ProviderSetting)) (procEnv : Store),
      (togetherResolveCreds serverEnv apiKeys providerSettings procEnv).1 ≠ ""
      ∧ ((∃ e, togetherGetModelInstance model serverEnv apiKeys providerSettings procEnv =
            .error e)
          ↔ (togetherResolveCreds serverEnv apiKeys providerSettings procEnv).2 = "") := by
  intro model serverEnv apiKeys providerSettings procEnv
  have hb := togetherResolveCreds_baseUrl_ne serverEnv apiKeys providerSettings procEnv
  refine ⟨hb, ?_⟩
  by_cases h2 : (togetherResolveCreds serverEnv apiKeys providerSettings procEnv).2 = ""
  · simp [togetherGetModelInstance, h2]
  · simp [togetherGetModelInstance, h2, hb]

/-- Witness for claim C10 at empty credential sources. -/
theorem together_baseUrl_always_resolves_witness :
    (togetherResolveCreds [] [] [] []).1 ≠ ""
    ∧ ((∃ e, togetherGetModelInstance "m" [] [] [] [] = .error e) ↔
        (togetherResolveCreds [] [] [] []).2 = "") :=
  together_baseUrl_always_resolves "m" [] [] [] []

end Spec2Proof
